import Mathlib

/-!
# Verification of the node-discovery protocol implementation

Shallow embedding of `src/DiscoveryClient.js` and `src/DiscoveryServer.js`
(the sequenced DISCOVER/CONNECT/KEEPALIVE revision).  Datagrams are modelled
as `List Char`; both sides split a datagram on single spaces exactly like
JavaScript's `String.prototype.split(' ')`.  JavaScript numbers used as
message ids are modelled as `Int`; `getTime()` readings (seconds) and the
millisecond configuration values are modelled as `ℚ`.  JSON payloads are
modelled by the inductive type `Json`, with `JSON.stringify` modelled by
`stringifyChars` (no-indent form, common escapes) and `JSON.parse` by
`jsJsonParse` (a scan rejecting unterminated string literals, followed by a
recursive-descent parse; numbers are restricted to integers, which covers
every value the protocol itself produces).
-/

/-- JSON values, the payloads carried by CONNECT/KEEPALIVE requests. -/
inductive Json where
  | null : Json
  | bool (b : Bool) : Json
  | num (n : Int) : Json
  | str (s : String) : Json
  | arr (xs : List Json) : Json
  | obj (kvs : List (String × Json)) : Json
deriving Repr

/-- Decimal digit characters, used to model JavaScript number-to-string. -/
def digitChar (d : Nat) : Char :=
  if d = 0 then '0' else if d = 1 then '1' else if d = 2 then '2'
  else if d = 3 then '3' else if d = 4 then '4' else if d = 5 then '5'
  else if d = 6 then '6' else if d = 7 then '7' else if d = 8 then '8'
  else '9'

/-- Decimal rendering of a natural number (fuelled division loop). -/
def natCharsAux : Nat → Nat → List Char
  | 0, _ => []
  | fuel + 1, n =>
    if n < 10 then [digitChar n]
    else natCharsAux fuel (n / 10) ++ [digitChar (n % 10)]

/-- Decimal rendering of a natural number. -/
def natChars (n : Nat) : List Char := natCharsAux (n + 1) n

/-- Decimal rendering of a JavaScript integer (`String(n)` for integral n). -/
def intChars : Int → List Char
  | Int.ofNat n => natChars n
  | Int.negSucc m => '-' :: natChars (m + 1)

/-- `String.prototype.split(' ')`: split on every single space character. -/
def splitSp : List Char → List (List Char)
  | [] => [[]]
  | c :: rest =>
    if c = ' ' then [] :: splitSp rest
    else
      match splitSp rest with
      | [] => [[c]]
      | t :: ts => (c :: t) :: ts

/-- Scan of a character list tracking JSON string-literal state: returns
`true` iff every string literal opened is closed (and no escape dangles).
`JSON.parse` fails on any input on which this scan fails. -/
def stringsClosed : List Char → Bool → Bool
  | [], inStr => !inStr
  | c :: rest, inStr =>
    if inStr && (c == '\\') then
      match rest with
      | [] => false
      | _ :: r => stringsClosed r true
    else if c == '"' then stringsClosed rest (!inStr)
    else stringsClosed rest inStr

/-- `JSON.stringify` escaping of one character inside a string literal. -/
def escChar (c : Char) : List Char :=
  if c = '"' then ['\\', '"']
  else if c = '\\' then ['\\', '\\']
  else if c = '\n' then ['\\', 'n']
  else if c = '\t' then ['\\', 't']
  else if c = '\r' then ['\\', 'r']
  else [c]

/-- `JSON.stringify` escaping of a whole string body. -/
def escStr (s : List Char) : List Char := (s.map escChar).flatten

mutual

/-- `JSON.stringify(v)` (no indent): the characters put on the wire by the
client when it serializes its payload. -/
def stringifyChars : Json → List Char
  | Json.null => "null".data
  | Json.bool true => "true".data
  | Json.bool false => "false".data
  | Json.num n => intChars n
  | Json.str s => '"' :: escStr s.data ++ ['"']
  | Json.arr xs => '[' :: stringifyList xs ++ [']']
  | Json.obj kvs => '{' :: stringifyObjList kvs ++ ['}']

/-- Comma-separated rendering of array elements. -/
def stringifyList : List Json → List Char
  | [] => []
  | [v] => stringifyChars v
  | v :: w :: rest => stringifyChars v ++ ',' :: stringifyList (w :: rest)

/-- Comma-separated rendering of object entries. -/
def stringifyObjList : List (String × Json) → List Char
  | [] => []
  | [kv] => stringifyEntry kv
  | kv :: p :: rest => stringifyEntry kv ++ ',' :: stringifyObjList (p :: rest)

/-- Rendering of one `"key":value` object entry. -/
def stringifyEntry : String × Json → List Char
  | (k, v) => '"' :: escStr k.data ++ '"' :: ':' :: stringifyChars v

end

/-- JSON whitespace skipping. -/
def skipWs (cs : List Char) : List Char :=
  cs.dropWhile (fun c => c == ' ' || c == '\n' || c == '\t' || c == '\r')

/-- Interpretation of an escape character inside a JSON string literal. -/
def unesc (c : Char) : Char :=
  if c = 'n' then '\n' else if c = 't' then '\t' else if c = 'r' then '\r' else c

/-- Parse the body of a string literal (after the opening quote), returning
the unescaped body and the remainder after the closing quote. -/
def parseStrBody : Nat → List Char → Option (List Char × List Char)
  | 0, _ => none
  | _ + 1, [] => none
  | fuel + 1, c :: rest =>
    if c = '"' then some ([], rest)
    else if c = '\\' then
      match rest with
      | [] => none
      | e :: r => (parseStrBody fuel r).map (fun p => (unesc e :: p.1, p.2))
    else (parseStrBody fuel rest).map (fun p => (c :: p.1, p.2))

/-- Value of a list of decimal digit characters. -/
def digitsVal (ds : List Char) : Nat :=
  ds.foldl (fun a c => 10 * a + (c.toNat - 48)) 0

/-- Parse a JSON integer literal. -/
def parseNum (cs : List Char) : Option (Json × List Char) :=
  match cs with
  | '-' :: rest =>
    let ds := rest.takeWhile Char.isDigit
    if ds = [] then none
    else some (Json.num (-(digitsVal ds : Int)), rest.drop ds.length)
  | _ =>
    let ds := cs.takeWhile Char.isDigit
    if ds = [] then none
    else some (Json.num (digitsVal ds), cs.drop ds.length)

mutual

/-- Recursive-descent JSON value parser (fuelled). -/
def parseVal : Nat → List Char → Option (Json × List Char)
  | 0, _ => none
  | fuel + 1, cs =>
    match skipWs cs with
    | [] => none
    | c :: rest =>
      if c = 'n' then
        match rest with
        | 'u' :: 'l' :: 'l' :: r => some (Json.null, r)
        | _ => none
      else if c = 't' then
        match rest with
        | 'r' :: 'u' :: 'e' :: r => some (Json.bool true, r)
        | _ => none
      else if c = 'f' then
        match rest with
        | 'a' :: 'l' :: 's' :: 'e' :: r => some (Json.bool false, r)
        | _ => none
      else if c = '"' then
        (parseStrBody (rest.length + 1) rest).map
          (fun p => (Json.str (String.mk p.1), p.2))
      else if c = '[' then
        match skipWs rest with
        | ']' :: r => some (Json.arr [], r)
        | r => (parseArrItems fuel r).map (fun p => (Json.arr p.1, p.2))
      else if c = '{' then
        match skipWs rest with
        | '}' :: r => some (Json.obj [], r)
        | r => (parseObjItems fuel r).map (fun p => (Json.obj p.1, p.2))
      else parseNum (c :: rest)

/-- Parse nonempty comma-separated array items up to the closing bracket. -/
def parseArrItems : Nat → List Char → Option (List Json × List Char)
  | 0, _ => none
  | fuel + 1, cs =>
    match parseVal fuel cs with
    | none => none
    | some (v, r) =>
      match skipWs r with
      | ',' :: r' => (parseArrItems fuel r').map (fun p => (v :: p.1, p.2))
      | ']' :: r' => some ([v], r')
      | _ => none

/-- Parse nonempty comma-separated object entries up to the closing brace. -/
def parseObjItems : Nat → List Char → Option (List (String × Json) × List Char)
  | 0, _ => none
  | fuel + 1, cs =>
    match skipWs cs with
    | '"' :: rest =>
      match parseStrBody (rest.length + 1) rest with
      | none => none
      | some (k, r) =>
        match skipWs r with
        | ':' :: r' =>
          match parseVal fuel r' with
          | none => none
          | some (v, r2) =>
            match skipWs r2 with
            | ',' :: r3 =>
              (parseObjItems fuel r3).map
                (fun p => ((String.mk k, v) :: p.1, p.2))
            | '}' :: r3 => some ([(String.mk k, v)], r3)
            | _ => none
        | _ => none
    | _ => none

end

/-- `JSON.parse` applied to a token that may be absent (JavaScript
`msg[i]` being `undefined`): fails on absent tokens, on inputs with an
unterminated string literal, and on inputs the grammar rejects. -/
def jsJsonParse : Option (List Char) → Option Json
  | none => none
  | some cs =>
    if stringsClosed cs false then
      match parseVal (cs.length + 1) cs with
      | some (v, rest) => if skipWs rest = [] then some v else none
      | none => none
    else none

/-- `parseInt(tok)` on a token that may be absent: `none` models `NaN`. -/
def jsParseInt : Option (List Char) → Option Int
  | none => none
  | some cs =>
    let cs := cs.dropWhile (fun c => c == ' ' || c == '\t' || c == '\n' || c == '\r')
    match cs with
    | '-' :: rest =>
      let ds := rest.takeWhile Char.isDigit
      if ds = [] then none else some (-(digitsVal ds : Int))
    | '+' :: rest =>
      let ds := rest.takeWhile Char.isDigit
      if ds = [] then none else some (digitsVal ds)
    | _ =>
      let ds := cs.takeWhile Char.isDigit
      if ds = [] then none else some (digitsVal ds)

/-- Rendering of a parsed sequence number back into a reply frame:
string concatenation with `NaN` prints "NaN". -/
def renderSeq : Option Int → List Char
  | some n => intChars n
  | none => "NaN".data

/-- UDP peer info (`rinfo`): sender address and port. -/
structure Rinfo where
  address : String
  port : Nat
deriving DecidableEq, Repr

/-- Events a `DiscoveryClient` emits to its host application. -/
inductive Evt where
  | connection (rinfo : Rinfo) : Evt
  | close : Evt
  | message (buffer : List Char) (rinfo : Rinfo) : Evt
deriving DecidableEq, Repr

/-- Outbound traffic from the client socket. -/
inductive Out where
  | unicast (msg : List Char) (dest : Rinfo) : Out
  | broadcast (msg : List Char) : Out
deriving DecidableEq, Repr

/-- JavaScript runtime errors the embedded code can raise. -/
inductive JsError where
  | typeError : JsError
deriving DecidableEq, Repr

namespace Client

/-- The mutable fields of a `DiscoveryClient`.  The three `*Armed` flags
model whether the corresponding `setTimeout` handle is outstanding
(`clearTimeout` disarms, `setTimeout` arms).  `udp = none` models a null
socket field, `some true` an open socket, `some false` a closed one (a
closed socket object is still truthy). -/
structure State where
  state : String
  server : Option Rinfo
  messageId : Int
  ackArmed : Bool
  discoverArmed : Bool
  keepaliveArmed : Bool
  udp : Option Bool
  payload : Json

/-- `send(msg)`: unicast to the current server.  Destructuring a null
`this.server` raises a `TypeError`, exactly as in the source. -/
def send (st : State) (msg : List Char) : Except JsError (List Out) :=
  if st.udp.isSome then
    match st.server with
    | some srv => Except.ok [Out.unicast msg srv]
    | none => Except.error JsError.typeError
  else Except.ok []

/-- `broadcast(msg)`: broadcast to the discovery port when a socket exists. -/
def broadcast (st : State) (msg : List Char) : List Out :=
  if st.udp.isSome then [Out.broadcast msg] else []

/-- `_sendDiscoverReq`: cancel the discover retry timer, stamp the next
sequence, broadcast `DISCOVER_REQ <id>`, re-arm the discover retry timer. -/
def sendDiscoverReq (st : State) : State × List Out :=
  let st1 := { st with discoverArmed := false, messageId := st.messageId + 1 }
  let outs := broadcast st1 ("DISCOVER_REQ ".data ++ intChars st1.messageId)
  ({ st1 with discoverArmed := true }, outs)

/-- `_sendConnectReq`: cancel the ack watchdog, stamp the next sequence,
unicast `CONNECT_REQ <id> <payload>`, arm the ack watchdog. -/
def sendConnectReq (st : State) : Except JsError (State × List Out) := do
  let st1 := { st with ackArmed := false, messageId := st.messageId + 1 }
  let outs ← send st1
    ("CONNECT_REQ ".data ++ intChars st1.messageId ++ ' ' :: stringifyChars st1.payload)
  Except.ok ({ st1 with ackArmed := true }, outs)

/-- `_sendKeepaliveReq`: cancel the ack watchdog and the keepalive timer,
stamp the next sequence, unicast `KEEPALIVE_REQ <id> <payload>`, arm the
ack watchdog. -/
def sendKeepaliveReq (st : State) : Except JsError (State × List Out) := do
  let st1 := { st with ackArmed := false, keepaliveArmed := false,
                       messageId := st.messageId + 1 }
  let outs ← send st1
    ("KEEPALIVE_REQ ".data ++ intChars st1.messageId ++ ' ' :: stringifyChars st1.payload)
  Except.ok ({ st1 with ackArmed := true }, outs)

/-- `_receiveDiscoverAck`: a mismatched (or unparseable) sequence is ignored;
a matching one cancels the discover retry timer, records the responder as
the server and, unless already connected, sends the connect request. -/
def receiveDiscoverAck (st : State) (msg : List (List Char)) (rinfo : Rinfo) :
    Except JsError (State × List Evt × List Out) :=
  match jsParseInt (msg.get? 1) with
  | some mid =>
    if mid = st.messageId then
      let st1 := { st with discoverArmed := false, server := some rinfo }
      if st1.state ≠ "connected" then
        (sendConnectReq st1).map (fun p => (p.1, [], p.2))
      else Except.ok (st1, [], [])
    else Except.ok (st, [], [])
  | none => Except.ok (st, [], [])

/-- `_receiveConnectAck`: a mismatched sequence is ignored; a matching one
cancels the ack watchdog, sets the state to connected and sends the first
keepalive request.  (No `connection` event is emitted here.) -/
def receiveConnectAck (st : State) (msg : List (List Char)) (_rinfo : Rinfo) :
    Except JsError (State × List Evt × List Out) :=
  match jsParseInt (msg.get? 1) with
  | some mid =>
    if mid = st.messageId then
      let st1 := { st with ackArmed := false, state := "connected" }
      (sendKeepaliveReq st1).map (fun p => (p.1, [], p.2))
    else Except.ok (st, [], [])
  | none => Except.ok (st, [], [])

/-- `_receiveKeepaliveAck`: a mismatched sequence is ignored; a matching one
cancels the ack watchdog and the keepalive timer and re-arms the keepalive
timer for the next period. -/
def receiveKeepaliveAck (st : State) (msg : List (List Char)) (_rinfo : Rinfo) :
    Except JsError (State × List Evt × List Out) :=
  match jsParseInt (msg.get? 1) with
  | some mid =>
    if mid = st.messageId then
      Except.ok ({ st with ackArmed := false, keepaliveArmed := true }, [], [])
    else Except.ok (st, [], [])
  | none => Except.ok (st, [], [])

/-- `_resetConnection`: bump the sequence (discarding any reply in flight),
cancel every timer, emit `close` iff the state was connected, go back to
disconnected with no server, and restart discovery. -/
def resetConnection (st : State) : State × List Evt × List Out :=
  let st1 := { st with messageId := st.messageId + 1, ackArmed := false,
                       discoverArmed := false, keepaliveArmed := false }
  let evts := if st1.state = "connected" then [Evt.close] else []
  let st2 := { st1 with state := "disconnected", server := none }
  let p := sendDiscoverReq st2
  (p.1, evts, p.2)

/-- Expiry of the ack watchdog invokes `_resetConnection`
(`setTimeout(this._resetConnection, ACK_TIMEOUT)`). -/
def ackWatchdogFire (st : State) : State × List Evt × List Out :=
  resetConnection st

/-- `_receiveError`: a mismatched sequence is ignored; a matching one resets
the connection. -/
def receiveError (st : State) (msg : List (List Char)) (_rinfo : Rinfo) :
    Except JsError (State × List Evt × List Out) :=
  match jsParseInt (msg.get? 1) with
  | some mid =>
    if mid = st.messageId then Except.ok (resetConnection st)
    else Except.ok (st, [], [])
  | none => Except.ok (st, [], [])

/-- The socket `message` handler: split the datagram on spaces and dispatch
on the leading token; anything not in the protocol is forwarded verbatim as
a `message` event. -/
def receive (st : State) (buffer : List Char) (rinfo : Rinfo) :
    Except JsError (State × List Evt × List Out) :=
  let msg := splitSp buffer
  let t := msg.getD 0 []
  if t = "DISCOVER_ACK".data then receiveDiscoverAck st msg rinfo
  else if t = "CONNECT_ACK".data then receiveConnectAck st msg rinfo
  else if t = "KEEPALIVE_ACK".data then receiveKeepaliveAck st msg rinfo
  else if t = "ERROR".data then receiveError st msg rinfo
  else Except.ok (st, [Evt.message buffer rinfo], [])

/-- `stop()`: `this.udp.close()` — closes the socket and nothing else;
none of the outstanding timers is cancelled. -/
def stop (st : State) : State := { st with udp := some false }

end Client

namespace Server

/-- A registry entry: the client's endpoint info, the time of the last
accepted request (seconds), and its parsed payload. -/
structure ClientRec where
  rinfo : Rinfo
  lastSeen : ℚ
  payload : Json

/-- Events a `DiscoveryServer` emits to its host application.  `close`
carries the record `Map.get` returned, which is absent (`undefined`) when
the key was not registered. -/
inductive SEvt where
  | connection (rec : ClientRec) : SEvt
  | close (rec : Option ClientRec) : SEvt
  | message (buffer : List Char) (rinfo : Rinfo) : SEvt

/-- One outbound datagram from the server: `send(msg, port, address)`. -/
structure SOut where
  msg : List Char
  port : Nat
  address : String

/-- The mutable fields of a `DiscoveryServer`: the registry (a `Map` in
insertion order), the two configured durations (milliseconds), the monitor
interval handle and the socket. -/
structure State where
  clients : List (String × ClientRec)
  monitorInterval : ℚ
  disconnectTimeout : ℚ
  monitorArmed : Bool
  udp : Option Bool

/-- `getKey(rinfo)`: the registry key `"address:port"`. -/
def getKey (rinfo : Rinfo) : String :=
  rinfo.address ++ ":" ++ String.mk (natChars rinfo.port)

/-- `this.clients.has(key)`. -/
def hasKey (l : List (String × ClientRec)) (k : String) : Bool :=
  l.any (fun kv => kv.1 == k)

/-- `this.clients.get(key)`. -/
def lookupKey (l : List (String × ClientRec)) (k : String) : Option ClientRec :=
  (l.find? (fun kv => kv.1 == k)).map (fun kv => kv.2)

/-- `this.clients.delete(key)`. -/
def deleteKey (l : List (String × ClientRec)) (k : String) :
    List (String × ClientRec) :=
  l.filter (fun kv => kv.1 != k)

/-- `this.clients.set(key, client)`: update in place if present, else append. -/
def mapSet (l : List (String × ClientRec)) (k : String) (rec : ClientRec) :
    List (String × ClientRec) :=
  if hasKey l k then l.map (fun kv => if kv.1 == k then (k, rec) else kv)
  else l ++ [(k, rec)]

/-- `_sendError`: `'ERROR ' + msg[1] + ' ' + msg[0]` with the raw tokens
(string concatenation with an absent token prints "undefined"). -/
def sendError (msg : List (List Char)) (rinfo : Rinfo) : SOut :=
  ⟨"ERROR ".data ++ msg.getD 1 "undefined".data ++ ' ' :: msg.getD 0 "undefined".data,
   rinfo.port, rinfo.address⟩

/-- `_sendDiscoverAck`: `'DISCOVER_ACK ' + parseInt(msg[1])`. -/
def sendDiscoverAck (msg : List (List Char)) (rinfo : Rinfo) : SOut :=
  ⟨"DISCOVER_ACK ".data ++ renderSeq (jsParseInt (msg.get? 1)), rinfo.port, rinfo.address⟩

/-- `_sendConnectAck`: `'CONNECT_ACK ' + parseInt(msg[1])`. -/
def sendConnectAck (msg : List (List Char)) (rinfo : Rinfo) : SOut :=
  ⟨"CONNECT_ACK ".data ++ renderSeq (jsParseInt (msg.get? 1)), rinfo.port, rinfo.address⟩

/-- `_sendKeepaliveAck`: `'KEEPALIVE_ACK ' + parseInt(msg[1])`. -/
def sendKeepaliveAck (msg : List (List Char)) (rinfo : Rinfo) : SOut :=
  ⟨"KEEPALIVE_ACK ".data ++ renderSeq (jsParseInt (msg.get? 1)), rinfo.port, rinfo.address⟩

/-- `_connectClient`: create the record with `lastSeen = now`, insert it and
emit a `connection` event. -/
def connectClient (st : State) (k : String) (rinfo : Rinfo) (payload : Json)
    (now : ℚ) : State × List SEvt :=
  let c := ClientRec.mk rinfo now payload
  ({ st with clients := mapSet st.clients k c }, [SEvt.connection c])

/-- `_disconnectClient`: delete the record and emit a `close` event with it. -/
def disconnectClient (st : State) (k : String) : State × List SEvt :=
  let c := lookupKey st.clients k
  ({ st with clients := deleteKey st.clients k }, [SEvt.close c])

/-- `_receiveConnectReq`: an already-registered endpoint is evicted and gets
an error (the new request is not registered); otherwise the payload is
parsed (empty object on malformed input), the record inserted and a
`CONNECT_ACK` sent. -/
def receiveConnectReq (st : State) (msg : List (List Char)) (rinfo : Rinfo)
    (now : ℚ) : State × List SEvt × List SOut :=
  let k := getKey rinfo
  if hasKey st.clients k then
    let p := disconnectClient st k
    (p.1, p.2, [sendError msg rinfo])
  else
    let payload := (jsJsonParse (msg.get? 2)).getD (Json.obj [])
    let p := connectClient st k rinfo payload now
    (p.1, p.2, [sendConnectAck msg rinfo])

/-- The in-place mutation `client.lastSeen = getTime()` on the record held
under key `k` of the registry. -/
def refreshLastSeen (l : List (String × ClientRec)) (k : String) (now : ℚ) :
    List (String × ClientRec) :=
  l.map (fun kv => if kv.1 == k then (kv.1, { kv.2 with lastSeen := now }) else kv)

/-- `_receiveKeepaliveReq`: an unregistered endpoint gets an error and the
registry is untouched; a registered one has its `lastSeen` set to now and
gets a `KEEPALIVE_ACK`. -/
def receiveKeepaliveReq (st : State) (msg : List (List Char)) (rinfo : Rinfo)
    (now : ℚ) : State × List SEvt × List SOut :=
  let k := getKey rinfo
  if !(hasKey st.clients k) then (st, [], [sendError msg rinfo])
  else
    ({ st with clients := refreshLastSeen st.clients k now }, [],
     [sendKeepaliveAck msg rinfo])

/-- `_receiveError`: evict the sender if registered, and echo an error. -/
def receiveError (st : State) (msg : List (List Char)) (rinfo : Rinfo) :
    State × List SEvt × List SOut :=
  let k := getKey rinfo
  if hasKey st.clients k then
    let p := disconnectClient st k
    (p.1, p.2, [sendError msg rinfo])
  else (st, [], [sendError msg rinfo])

/-- The socket `message` handler: split on spaces, dispatch on the leading
token; anything not in the protocol is forwarded as a `message` event. -/
def receive (st : State) (buffer : List Char) (rinfo : Rinfo) (now : ℚ) :
    State × List SEvt × List SOut :=
  let msg := splitSp buffer
  let t := msg.getD 0 []
  if t = "DISCOVER_REQ".data then (st, [], [sendDiscoverAck msg rinfo])
  else if t = "CONNECT_REQ".data then receiveConnectReq st msg rinfo now
  else if t = "KEEPALIVE_REQ".data then receiveKeepaliveReq st msg rinfo now
  else if t = "ERROR".data then receiveError st msg rinfo
  else (st, [SEvt.message buffer rinfo], [])

/-- `_monitorClients`: visit every registry entry, deleting (with a `close`
event carrying the deleted record) each one whose `now - lastSeen` (seconds)
exceeds `0.001 * disconnectTimeout` (the timeout is configured in
milliseconds).  The loop deletes the entry it is visiting, which is exactly
a filter of the registry. -/
def monitorClients (st : State) (now : ℚ) : State × List SEvt :=
  let expired := fun (kv : String × ClientRec) =>
    decide (now - kv.2.lastSeen > (1 / 1000 : ℚ) * st.disconnectTimeout)
  ({ st with clients := st.clients.filter (fun kv => !(expired kv)) },
   (st.clients.filter expired).map (fun kv => SEvt.close (some kv.2)))

/-- `stop()`: `clearInterval(this._monitorIntervalId); this.udp.close()`. -/
def stop (st : State) : State := { st with monitorArmed := false, udp := some false }

end Server

/-- Well-formed escaped body of a JSON string literal as produced by
`escStr`: a sequence of escape pairs and plain characters, with no unescaped
quote and no dangling backslash. -/
inductive StrBody : List Char → Prop where
  | nil : StrBody []
  | esc (c : Char) {cs : List Char} : StrBody cs → StrBody ('\\' :: c :: cs)
  | chr (c : Char) (h1 : c ≠ '"') (h2 : c ≠ '\\') {cs : List Char} :
      StrBody cs → StrBody (c :: cs)

/-- Shape of `JSON.stringify` output: a concatenation of plain characters
(never a space, quote or backslash) and complete string literals.  Every
space in such a list lies inside a string literal. -/
inductive Chunks : List Char → Prop where
  | nil : Chunks []
  | plain (c : Char) (h1 : c ≠ ' ') (h2 : c ≠ '"') (h3 : c ≠ '\\') {cs : List Char} :
      Chunks cs → Chunks (c :: cs)
  | strat (s : List Char) (hs : StrBody s) {cs : List Char} :
      Chunks cs → Chunks ('"' :: (s ++ '"' :: cs))

/-! ## Sample states used by concrete witnesses and counterexamples -/

/-- A sample server endpoint. -/
def sampleRinfo : Rinfo := ⟨"192.168.0.10", 8888⟩

/-- A sample client endpoint. -/
def clientRinfo : Rinfo := ⟨"10.0.0.2", 4000⟩

/-- A client mid-handshake: it has sent `CONNECT_REQ 1` and armed the ack
watchdog. -/
def connectingClient : Client.State :=
  { state := "disconnected", server := some sampleRinfo, messageId := 1,
    ackArmed := true, discoverArmed := false, keepaliveArmed := false,
    udp := some true, payload := Json.obj [] }

/-- A freshly started client: broadcasting discovery, no server yet. -/
def startedClient : Client.State :=
  { state := "disconnected", server := none, messageId := 0,
    ackArmed := false, discoverArmed := true, keepaliveArmed := false,
    udp := some true, payload := Json.obj [] }

/-- A connected client awaiting `KEEPALIVE_ACK 5`. -/
def connectedClient : Client.State :=
  { state := "connected", server := some sampleRinfo, messageId := 5,
    ackArmed := true, discoverArmed := false, keepaliveArmed := false,
    udp := some true, payload := Json.obj [] }

/-- A started server with an empty registry. -/
def emptyServer : Server.State :=
  { clients := [], monitorInterval := 2000, disconnectTimeout := 10000,
    monitorArmed := true, udp := some true }

/-- A sample registry record registered at time 0. -/
def sampleRec : Server.ClientRec := ⟨clientRinfo, 0, Json.null⟩

/-- A started server with one registered client. -/
def oneClientServer : Server.State :=
  { clients := [(Server.getKey clientRinfo, sampleRec)], monitorInterval := 2000,
    disconnectTimeout := 10000, monitorArmed := true, udp := some true }

/-! ## Dispatch lemmas -/

theorem client_receive_discover_ack (st : Client.State) (buffer : List Char)
    (rinfo : Rinfo) (h : (splitSp buffer).getD 0 [] = "DISCOVER_ACK".data) :
    Client.receive st buffer rinfo = Client.receiveDiscoverAck st (splitSp buffer) rinfo := by
  simp only [Client.receive]
  rw [h, if_pos rfl]

theorem client_receive_connect_ack (st : Client.State) (buffer : List Char)
    (rinfo : Rinfo) (h : (splitSp buffer).getD 0 [] = "CONNECT_ACK".data) :
    Client.receive st buffer rinfo = Client.receiveConnectAck st (splitSp buffer) rinfo := by
  simp only [Client.receive]
  rw [h, if_neg (by decide), if_pos rfl]

theorem client_receive_keepalive_ack (st : Client.State) (buffer : List Char)
    (rinfo : Rinfo) (h : (splitSp buffer).getD 0 [] = "KEEPALIVE_ACK".data) :
    Client.receive st buffer rinfo = Client.receiveKeepaliveAck st (splitSp buffer) rinfo := by
  simp only [Client.receive]
  rw [h, if_neg (by decide), if_neg (by decide), if_pos rfl]

theorem client_receive_error (st : Client.State) (buffer : List Char)
    (rinfo : Rinfo) (h : (splitSp buffer).getD 0 [] = "ERROR".data) :
    Client.receive st buffer rinfo = Client.receiveError st (splitSp buffer) rinfo := by
  simp only [Client.receive]
  rw [h, if_neg (by decide), if_neg (by decide), if_neg (by decide), if_pos rfl]

theorem server_receive_discover_req (st : Server.State) (buffer : List Char)
    (rinfo : Rinfo) (now : ℚ) (h : (splitSp buffer).getD 0 [] = "DISCOVER_REQ".data) :
    Server.receive st buffer rinfo now = (st, [], [Server.sendDiscoverAck (splitSp buffer) rinfo]) := by
  simp only [Server.receive]
  rw [h, if_pos rfl]

theorem server_receive_connect_req (st : Server.State) (buffer : List Char)
    (rinfo : Rinfo) (now : ℚ) (h : (splitSp buffer).getD 0 [] = "CONNECT_REQ".data) :
    Server.receive st buffer rinfo now = Server.receiveConnectReq st (splitSp buffer) rinfo now := by
  simp only [Server.receive]
  rw [h, if_neg (by decide), if_pos rfl]

theorem server_receive_keepalive_req (st : Server.State) (buffer : List Char)
    (rinfo : Rinfo) (now : ℚ) (h : (splitSp buffer).getD 0 [] = "KEEPALIVE_REQ".data) :
    Server.receive st buffer rinfo now = Server.receiveKeepaliveReq st (splitSp buffer) rinfo now := by
  simp only [Server.receive]
  rw [h, if_neg (by decide), if_neg (by decide), if_pos rfl]

/-! ## C9: send() with no discovered server throws -/

/-- C9: while the socket exists and is open but no server has been
discovered (`this.server === null`), the public `send(msg)` throws a
`TypeError` from destructuring the null server endpoint — it is neither a
no-op nor a recoverable error. -/
theorem send_before_discovery_throws (st : Client.State) (m : List Char)
    (hu : st.udp = some true) (hs : st.server = none) :
    Client.send st m = Except.error JsError.typeError := by
  simp [Client.send, hu, hs]

/-- Witness for `send_before_discovery_throws` at a concrete started client. -/
theorem send_before_discovery_throws_witness :
    startedClient.udp = some true ∧ startedClient.server = none ∧
    Client.send startedClient "hello".data = Except.error JsError.typeError :=
  ⟨rfl, rfl, send_before_discovery_throws startedClient "hello".data rfl rfl⟩

/-! ## C2: stop() and outstanding timers -/

/-- C2 counterexample: on a started client whose discover retry timer is
armed, `stop()` returns with the timer still armed (it only closes the
socket), so a timer callback can still fire after `stop()` returns.  This
refutes the claim that `stop()` cancels all outstanding timers on the
client. -/
theorem client_stop_leaves_timer_armed :
    startedClient.discoverArmed = true ∧
    (Client.stop startedClient).discoverArmed = true ∧
    (Client.stop startedClient).udp = some false :=
  ⟨rfl, rfl, rfl⟩

/-- C2 amended: the server's `stop()` cancels the monitor sweep interval and
closes the socket; the client's `stop()` only closes the socket and leaves
the discover retry, ack-watchdog and keepalive timers exactly as they were. -/
theorem stop_cancels_server_timer_only (cs : Client.State) (ss : Server.State) :
    (Client.stop cs).udp = some false ∧
    (Client.stop cs).discoverArmed = cs.discoverArmed ∧
    (Client.stop cs).ackArmed = cs.ackArmed ∧
    (Client.stop cs).keepaliveArmed = cs.keepaliveArmed ∧
    (Server.stop ss).monitorArmed = false ∧
    (Server.stop ss).udp = some false ∧
    (Server.stop ss).clients = ss.clients :=
  ⟨rfl, rfl, rfl, rfl, rfl, rfl, rfl⟩

/-! ## C1: CONNECT_ACK handling emits no connection event -/

/-- C1 (code bug): a client that has sent `CONNECT_REQ 1` and receives the
matching `CONNECT_ACK 1` cancels the watchdog, becomes connected and sends
`KEEPALIVE_REQ 2`, but the event list is empty — no `connection` event is
ever emitted by this client, although the class documentation subscribes to
one and the specification requires exactly one per connect cycle. -/
theorem connect_ack_emits_no_connection_event :
    Client.receive connectingClient "CONNECT_ACK 1".data sampleRinfo =
      Except.ok ({ connectingClient with
                   state := "connected", messageId := 2, ackArmed := true },
                 [],
                 [Out.unicast ("KEEPALIVE_REQ 2 ".data ++ stringifyChars (Json.obj []))
                    sampleRinfo]) := by
  rfl

/-! ## C4: stale replies are discarded without side effects -/

theorem receiveDiscoverAck_stale (st : Client.State) (msg : List (List Char))
    (rinfo : Rinfo) (hseq : jsParseInt (msg.get? 1) ≠ some st.messageId) :
    Client.receiveDiscoverAck st msg rinfo = Except.ok (st, [], []) := by
  unfold Client.receiveDiscoverAck
  cases hp : jsParseInt (msg.get? 1) with
  | none => rfl
  | some mid =>
    have hne : mid ≠ st.messageId := by
      intro h
      exact hseq (by rw [hp, h])
    simp [hne]

theorem receiveConnectAck_stale (st : Client.State) (msg : List (List Char))
    (rinfo : Rinfo) (hseq : jsParseInt (msg.get? 1) ≠ some st.messageId) :
    Client.receiveConnectAck st msg rinfo = Except.ok (st, [], []) := by
  unfold Client.receiveConnectAck
  cases hp : jsParseInt (msg.get? 1) with
  | none => rfl
  | some mid =>
    have hne : mid ≠ st.messageId := by
      intro h
      exact hseq (by rw [hp, h])
    simp [hne]

theorem receiveKeepaliveAck_stale (st : Client.State) (msg : List (List Char))
    (rinfo : Rinfo) (hseq : jsParseInt (msg.get? 1) ≠ some st.messageId) :
    Client.receiveKeepaliveAck st msg rinfo = Except.ok (st, [], []) := by
  unfold Client.receiveKeepaliveAck
  cases hp : jsParseInt (msg.get? 1) with
  | none => rfl
  | some mid =>
    have hne : mid ≠ st.messageId := by
      intro h
      exact hseq (by rw [hp, h])
    simp [hne]

theorem receiveError_stale (st : Client.State) (msg : List (List Char))
    (rinfo : Rinfo) (hseq : jsParseInt (msg.get? 1) ≠ some st.messageId) :
    Client.receiveError st msg rinfo = Except.ok (st, [], []) := by
  unfold Client.receiveError
  cases hp : jsParseInt (msg.get? 1) with
  | none => rfl
  | some mid =>
    have hne : mid ≠ st.messageId := by
      intro h
      exact hseq (by rw [hp, h])
    simp [hne]

/-- C4: any inbound `DISCOVER_ACK`, `CONNECT_ACK`, `KEEPALIVE_ACK` or
`ERROR` frame whose echoed sequence does not parse to the session's current
`messageId` is discarded: the returned session is the input session
unchanged in every field, no event is emitted and nothing is sent. -/
theorem stale_reply_is_noop (st : Client.State) (buffer : List Char) (rinfo : Rinfo)
    (htype : (splitSp buffer).getD 0 [] = "DISCOVER_ACK".data ∨
             (splitSp buffer).getD 0 [] = "CONNECT_ACK".data ∨
             (splitSp buffer).getD 0 [] = "KEEPALIVE_ACK".data ∨
             (splitSp buffer).getD 0 [] = "ERROR".data)
    (hseq : jsParseInt ((splitSp buffer).get? 1) ≠ some st.messageId) :
    Client.receive st buffer rinfo = Except.ok (st, [], []) := by
  rcases htype with h | h | h | h
  · rw [client_receive_discover_ack st buffer rinfo h]
    exact receiveDiscoverAck_stale st _ rinfo hseq
  · rw [client_receive_connect_ack st buffer rinfo h]
    exact receiveConnectAck_stale st _ rinfo hseq
  · rw [client_receive_keepalive_ack st buffer rinfo h]
    exact receiveKeepaliveAck_stale st _ rinfo hseq
  · rw [client_receive_error st buffer rinfo h]
    exact receiveError_stale st _ rinfo hseq

/-- Witness for `stale_reply_is_noop`: the spec's Scenario D — outstanding
sequence 6, received `CONNECT_ACK 5` — leaves the session untouched. -/
theorem stale_reply_is_noop_witness :
    jsParseInt ((splitSp "CONNECT_ACK 5".data).get? 1) ≠
      some ({ connectedClient with messageId := 6 } : Client.State).messageId ∧
    Client.receive { connectedClient with messageId := 6 } "CONNECT_ACK 5".data sampleRinfo =
      Except.ok ({ connectedClient with messageId := 6 }, [], []) :=
  ⟨by decide,
   stale_reply_is_noop { connectedClient with messageId := 6 } "CONNECT_ACK 5".data
     sampleRinfo (Or.inr (Or.inl (by decide))) (by decide)⟩

/-! ## C6: watchdog expiry / matching ERROR resets and restarts discovery -/

/-- C6: expiry of the ack watchdog (which invokes `_resetConnection`), and
equally an `ERROR` frame whose echoed sequence matches the last sent one,
cancels the ack and keepalive timers, emits `close` exactly when the prior
state was connected, bumps the sequence counter, returns to disconnected
with no server endpoint, and immediately restarts discovery: `DISCOVER_REQ`
is broadcast with the fresh sequence and the discover retry timer is
re-armed by that restart. -/
theorem reset_on_watchdog_or_error (st : Client.State) (buffer : List Char)
    (rinfo : Rinfo) (htok : (splitSp buffer).getD 0 [] = "ERROR".data)
    (hseq : jsParseInt ((splitSp buffer).get? 1) = some st.messageId) :
    Client.receive st buffer rinfo = Except.ok (Client.ackWatchdogFire st) ∧
    (Client.ackWatchdogFire st).1.messageId = st.messageId + 2 ∧
    (Client.ackWatchdogFire st).1.state = "disconnected" ∧
    (Client.ackWatchdogFire st).1.server = none ∧
    (Client.ackWatchdogFire st).1.ackArmed = false ∧
    (Client.ackWatchdogFire st).1.keepaliveArmed = false ∧
    (Client.ackWatchdogFire st).1.discoverArmed = true ∧
    (Client.ackWatchdogFire st).2.1 =
      (if st.state = "connected" then [Evt.close] else []) ∧
    (Client.ackWatchdogFire st).2.2 =
      (if st.udp.isSome then
        [Out.broadcast ("DISCOVER_REQ ".data ++ intChars (st.messageId + 2))]
       else []) := by
  refine ⟨?_, ?_, rfl, rfl, rfl, rfl, rfl, rfl, ?_⟩
  · rw [client_receive_error st buffer rinfo htok]
    unfold Client.receiveError
    rw [hseq]
    simp [Client.ackWatchdogFire]
  · show st.messageId + 1 + 1 = st.messageId + 2
    omega
  · show Client.broadcast _ _ = _
    simp only [Client.broadcast]
    have : st.messageId + 1 + 1 = st.messageId + 2 := by omega
    rw [this]

/-- Witness for `reset_on_watchdog_or_error`: a connected client receiving
the matching `ERROR 5` emits `close` and re-broadcasts `DISCOVER_REQ 7`. -/
theorem reset_on_watchdog_or_error_witness :
    jsParseInt ((splitSp "ERROR 5".data).get? 1) = some connectedClient.messageId ∧
    Client.receive connectedClient "ERROR 5".data sampleRinfo =
      Except.ok (Client.ackWatchdogFire connectedClient) ∧
    (Client.ackWatchdogFire connectedClient).2.1 = [Evt.close] ∧
    (Client.ackWatchdogFire connectedClient).2.2 =
      [Out.broadcast "DISCOVER_REQ 7".data] :=
  ⟨by decide,
   (reset_on_watchdog_or_error connectedClient "ERROR 5".data sampleRinfo
      (by decide) (by decide)).1,
   rfl, rfl⟩

/-! ## C3: eviction boundary of the periodic sweep -/

/-- C3: one run of the periodic sweep at time `now` evicts, with a close
event carrying its record, every registered endpoint whose `now - lastSeen`
(seconds) strictly exceeds the configured disconnect timeout (milliseconds,
hence the `1/1000` conversion the code applies); an endpoint whose
`now - lastSeen` is less than or equal to the timeout — in particular one
exactly at the boundary — stays registered. -/
theorem monitor_eviction_boundary (st : Server.State) (now : ℚ) (k : String)
    (cr : Server.ClientRec) (hmem : (k, cr) ∈ st.clients) :
    (now - cr.lastSeen > (1 / 1000 : ℚ) * st.disconnectTimeout →
       (k, cr) ∉ (Server.monitorClients st now).1.clients ∧
       Server.SEvt.close (some cr) ∈ (Server.monitorClients st now).2) ∧
    (now - cr.lastSeen ≤ (1 / 1000 : ℚ) * st.disconnectTimeout →
       (k, cr) ∈ (Server.monitorClients st now).1.clients) := by
  constructor
  · intro hgt
    constructor
    · intro hin
      simp only [Server.monitorClients, List.mem_filter] at hin
      rcases hin with ⟨-, h2⟩
      rw [Bool.not_eq_true', decide_eq_false_iff_not] at h2
      exact h2 hgt
    · simp only [Server.monitorClients, List.mem_map]
      exact ⟨(k, cr), List.mem_filter.mpr ⟨hmem, by simpa using hgt⟩, rfl⟩
  · intro hle
    simp only [Server.monitorClients]
    exact List.mem_filter.mpr ⟨hmem, by simpa using not_lt.mpr hle⟩

/-- Witness for `monitor_eviction_boundary`: with a 10000 ms timeout, a
record last seen at 0 is evicted by a sweep at time 11 (and gets its close
event), and is kept by a sweep at exactly the boundary time 10. -/
theorem monitor_eviction_boundary_witness :
    (Server.getKey clientRinfo, sampleRec) ∈ oneClientServer.clients ∧
    (Server.getKey clientRinfo, sampleRec) ∉
      (Server.monitorClients oneClientServer 11).1.clients ∧
    Server.SEvt.close (some sampleRec) ∈ (Server.monitorClients oneClientServer 11).2 ∧
    (Server.getKey clientRinfo, sampleRec) ∈
      (Server.monitorClients oneClientServer 10).1.clients := by
  have hmem : (Server.getKey clientRinfo, sampleRec) ∈ oneClientServer.clients :=
    List.mem_singleton.mpr rfl
  have h11 := monitor_eviction_boundary oneClientServer 11 (Server.getKey clientRinfo)
    sampleRec hmem
  have h10 := monitor_eviction_boundary oneClientServer 10 (Server.getKey clientRinfo)
    sampleRec hmem
  have hgt : (11 : ℚ) - sampleRec.lastSeen > (1 / 1000 : ℚ) * oneClientServer.disconnectTimeout := by
    norm_num [sampleRec, oneClientServer]
  have hle : (10 : ℚ) - sampleRec.lastSeen ≤ (1 / 1000 : ℚ) * oneClientServer.disconnectTimeout := by
    norm_num [sampleRec, oneClientServer]
  exact ⟨hmem, (h11.1 hgt).1, (h11.1 hgt).2, h10.2 hle⟩

/-! ## C7: keepalive handling -/

theorem splitSp_ne_nil (cs : List Char) : splitSp cs ≠ [] := by
  cases cs with
  | nil => simp [splitSp]
  | cons c rest =>
    unfold splitSp
    by_cases h : c = ' '
    · simp [h]
    · rw [if_neg h]
      cases splitSp rest <;> simp

theorem splitSp_head_token (buffer : List Char) (v : List Char)
    (h : (splitSp buffer).getD 0 [] = v) :
    ∃ ts, splitSp buffer = v :: ts := by
  cases hs : splitSp buffer with
  | nil => exact absurd hs (splitSp_ne_nil buffer)
  | cons a b =>
    rw [hs] at h
    simp only [List.getD_cons_zero] at h
    exact ⟨b, by rw [h]⟩

theorem lookupKey_refreshLastSeen (l : List (String × Server.ClientRec))
    (k : String) (now : ℚ) :
    Server.lookupKey (Server.refreshLastSeen l k now) k =
      (Server.lookupKey l k).map (fun cr => { cr with lastSeen := now }) := by
  induction l with
  | nil => rfl
  | cons kv t ih =>
    simp only [Server.refreshLastSeen, List.map_cons] at ih ⊢
    cases h : (kv.1 == k) with
    | true =>
      simp [Server.lookupKey, List.find?_cons, h]
    | false =>
      rw [if_neg (by simp [h])]
      simp only [Server.lookupKey, List.find?_cons, h] at ih ⊢
      exact ih

/-- C7: a `KEEPALIVE_REQ` from an unregistered endpoint is answered with
`ERROR <seq> KEEPALIVE_REQ` and the whole server state is unchanged; from a
registered endpoint it sets the record's `lastSeen` to now and is answered
with the matching `KEEPALIVE_ACK`, so that whenever the clock has not gone
backwards the record's `lastSeen` never decreases. -/
theorem keepalive_refresh_spec (st : Server.State) (buffer : List Char)
    (rinfo : Rinfo) (now : ℚ)
    (htok : (splitSp buffer).getD 0 [] = "KEEPALIVE_REQ".data) :
    (Server.hasKey st.clients (Server.getKey rinfo) = false →
       Server.receive st buffer rinfo now =
         (st, [],
          [⟨"ERROR ".data ++ (splitSp buffer).getD 1 "undefined".data ++
             ' ' :: "KEEPALIVE_REQ".data, rinfo.port, rinfo.address⟩])) ∧
    (Server.hasKey st.clients (Server.getKey rinfo) = true →
       (Server.receive st buffer rinfo now).1.clients =
         Server.refreshLastSeen st.clients (Server.getKey rinfo) now ∧
       (Server.receive st buffer rinfo now).2.1 = [] ∧
       (Server.receive st buffer rinfo now).2.2 =
         [⟨"KEEPALIVE_ACK ".data ++ renderSeq (jsParseInt ((splitSp buffer).get? 1)),
           rinfo.port, rinfo.address⟩] ∧
       (∀ cr, Server.lookupKey st.clients (Server.getKey rinfo) = some cr →
          Server.lookupKey (Server.receive st buffer rinfo now).1.clients
              (Server.getKey rinfo) = some { cr with lastSeen := now } ∧
          (cr.lastSeen ≤ now →
            ∀ cr2, Server.lookupKey (Server.receive st buffer rinfo now).1.clients
                (Server.getKey rinfo) = some cr2 → cr.lastSeen ≤ cr2.lastSeen))) := by
  obtain ⟨ts, hsplit⟩ := splitSp_head_token buffer _ htok
  rw [server_receive_keepalive_req st buffer rinfo now htok]
  rw [hsplit]
  constructor
  · intro h
    simp only [Server.receiveKeepaliveReq, h, Bool.not_false, if_true]
    rfl
  · intro h
    simp only [Server.receiveKeepaliveReq, h, Bool.not_true, Bool.false_eq_true, if_false]
    refine ⟨trivial, trivial, rfl, ?_⟩
    intro cr hcr
    have hl := lookupKey_refreshLastSeen st.clients (Server.getKey rinfo) now
    rw [hcr] at hl
    refine ⟨hl, ?_⟩
    intro hmono cr2 hcr2
    rw [hl] at hcr2
    cases hcr2
    exact hmono

/-- Witness for `keepalive_refresh_spec`: the registered sample client
keepalives at time 3 and has `lastSeen` refreshed; an unregistered endpoint
gets `ERROR 9 KEEPALIVE_REQ` with the registry untouched. -/
theorem keepalive_refresh_spec_witness :
    Server.hasKey oneClientServer.clients (Server.getKey clientRinfo) = true ∧
    (Server.receive oneClientServer "KEEPALIVE_REQ 9".data clientRinfo 3).1.clients =
      Server.refreshLastSeen oneClientServer.clients (Server.getKey clientRinfo) 3 ∧
    Server.hasKey emptyServer.clients (Server.getKey clientRinfo) = false ∧
    Server.receive emptyServer "KEEPALIVE_REQ 9".data clientRinfo 3 =
      (emptyServer, [],
       [⟨"ERROR ".data ++ (splitSp "KEEPALIVE_REQ 9".data).getD 1 "undefined".data ++
          ' ' :: "KEEPALIVE_REQ".data, clientRinfo.port, clientRinfo.address⟩]) :=
  ⟨by decide,
   ((keepalive_refresh_spec oneClientServer "KEEPALIVE_REQ 9".data clientRinfo 3
       (by decide)).2 (by decide)).1,
   by decide,
   (keepalive_refresh_spec emptyServer "KEEPALIVE_REQ 9".data clientRinfo 3
       (by decide)).1 (by decide)⟩

/-! ## C5: connect handling and registry uniqueness -/

theorem hasKey_false_iff (l : List (String × Server.ClientRec)) (k : String) :
    Server.hasKey l k = false ↔ ∀ kv ∈ l, kv.1 ≠ k := by
  simp [Server.hasKey, List.any_eq_false]

theorem hasKey_deleteKey (l : List (String × Server.ClientRec)) (k : String) :
    Server.hasKey (Server.deleteKey l k) k = false := by
  rw [hasKey_false_iff]
  intro kv hkv
  simp only [Server.deleteKey, List.mem_filter] at hkv
  simpa using hkv.2

theorem mapSet_absent (l : List (String × Server.ClientRec)) (k : String)
    (c : Server.ClientRec) (h : Server.hasKey l k = false) :
    Server.mapSet l k c = l ++ [(k, c)] := by
  rw [Server.mapSet, h]
  simp

theorem nodup_keys_delete (l : List (String × Server.ClientRec)) (k : String)
    (h : (l.map Prod.fst).Nodup) : ((Server.deleteKey l k).map Prod.fst).Nodup :=
  List.Nodup.sublist (List.Sublist.map Prod.fst (List.filter_sublist l)) h

theorem nodup_keys_append_new (l : List (String × Server.ClientRec)) (k : String)
    (c : Server.ClientRec) (hn : (l.map Prod.fst).Nodup)
    (h : Server.hasKey l k = false) :
    ((l ++ [(k, c)]).map Prod.fst).Nodup := by
  rw [List.map_append, List.nodup_append]
  refine ⟨hn, List.nodup_singleton k, ?_⟩
  intro x hx hx2
  simp only [List.map_cons, List.map_nil, List.mem_singleton] at hx2
  subst hx2
  rw [List.mem_map] at hx
  obtain ⟨kv, hkv, hfst⟩ := hx
  exact (hasKey_false_iff l x).mp h kv hkv hfst

theorem receiveConnectReq_spec (st : Server.State) (buffer : List Char)
    (rinfo : Rinfo) (now : ℚ)
    (htok : (splitSp buffer).getD 0 [] = "CONNECT_REQ".data) :
    (Server.hasKey st.clients (Server.getKey rinfo) = true →
       (Server.receive st buffer rinfo now).1.clients =
         Server.deleteKey st.clients (Server.getKey rinfo) ∧
       (Server.receive st buffer rinfo now).2.1 =
         [Server.SEvt.close (Server.lookupKey st.clients (Server.getKey rinfo))] ∧
       (Server.receive st buffer rinfo now).2.2 =
         [⟨"ERROR ".data ++ (splitSp buffer).getD 1 "undefined".data ++
            ' ' :: "CONNECT_REQ".data, rinfo.port, rinfo.address⟩] ∧
       Server.hasKey (Server.receive st buffer rinfo now).1.clients
         (Server.getKey rinfo) = false) ∧
    (Server.hasKey st.clients (Server.getKey rinfo) = false →
       (Server.receive st buffer rinfo now).1.clients =
         st.clients ++ [(Server.getKey rinfo,
           ⟨rinfo, now, (jsJsonParse ((splitSp buffer).get? 2)).getD (Json.obj [])⟩)] ∧
       (Server.receive st buffer rinfo now).2.1 =
         [Server.SEvt.connection
            ⟨rinfo, now, (jsJsonParse ((splitSp buffer).get? 2)).getD (Json.obj [])⟩] ∧
       (Server.receive st buffer rinfo now).2.2 =
         [⟨"CONNECT_ACK ".data ++ renderSeq (jsParseInt ((splitSp buffer).get? 1)),
           rinfo.port, rinfo.address⟩]) ∧
    ((st.clients.map Prod.fst).Nodup →
       ((Server.receive st buffer rinfo now).1.clients.map Prod.fst).Nodup) := by
  obtain ⟨ts, hsplit⟩ := splitSp_head_token buffer _ htok
  rw [server_receive_connect_req st buffer rinfo now htok, hsplit]
  cases h : Server.hasKey st.clients (Server.getKey rinfo) with
  | true =>
    simp only [Server.receiveConnectReq, h, if_true, Server.disconnectClient]
    exact ⟨fun _ => ⟨trivial, trivial, rfl, hasKey_deleteKey _ _⟩,
           fun hc => absurd hc (by decide),
           fun hn => nodup_keys_delete _ _ hn⟩
  | false =>
    simp only [Server.receiveConnectReq, h, Bool.false_eq_true, if_false,
      Server.connectClient]
    rw [mapSet_absent _ _ _ h]
    exact ⟨fun hc => hc.elim,
           fun _ => ⟨rfl, trivial, rfl⟩,
           fun hn => nodup_keys_append_new _ _ _ hn h⟩

/-- C5: a `CONNECT_REQ` from a registered endpoint evicts the existing
record with a close event, answers `ERROR <seq> CONNECT_REQ`, and does not
register the request (the key is absent afterwards); from an unregistered
endpoint the payload is parsed with an empty-object fallback on malformed
input and a record `(endpoint, now, payload)` is inserted, with a connection
event and a matching `CONNECT_ACK`.  Either way key-uniqueness of the
registry is preserved, so it never holds two records for one endpoint. -/
theorem connect_registration_spec (st : Server.State) (buffer : List Char)
    (rinfo : Rinfo) (now : ℚ)
    (htok : (splitSp buffer).getD 0 [] = "CONNECT_REQ".data) :
    (Server.hasKey st.clients (Server.getKey rinfo) = true →
       (Server.receive st buffer rinfo now).1.clients =
         Server.deleteKey st.clients (Server.getKey rinfo) ∧
       (Server.receive st buffer rinfo now).2.1 =
         [Server.SEvt.close (Server.lookupKey st.clients (Server.getKey rinfo))] ∧
       (Server.receive st buffer rinfo now).2.2 =
         [⟨"ERROR ".data ++ (splitSp buffer).getD 1 "undefined".data ++
            ' ' :: "CONNECT_REQ".data, rinfo.port, rinfo.address⟩] ∧
       Server.hasKey (Server.receive st buffer rinfo now).1.clients
         (Server.getKey rinfo) = false) ∧
    (Server.hasKey st.clients (Server.getKey rinfo) = false →
       (Server.receive st buffer rinfo now).1.clients =
         st.clients ++ [(Server.getKey rinfo,
           ⟨rinfo, now, (jsJsonParse ((splitSp buffer).get? 2)).getD (Json.obj [])⟩)] ∧
       (Server.receive st buffer rinfo now).2.1 =
         [Server.SEvt.connection
            ⟨rinfo, now, (jsJsonParse ((splitSp buffer).get? 2)).getD (Json.obj [])⟩] ∧
       (Server.receive st buffer rinfo now).2.2 =
         [⟨"CONNECT_ACK ".data ++ renderSeq (jsParseInt ((splitSp buffer).get? 1)),
           rinfo.port, rinfo.address⟩]) ∧
    ((st.clients.map Prod.fst).Nodup →
       ((Server.receive st buffer rinfo now).1.clients.map Prod.fst).Nodup) :=
  receiveConnectReq_spec st buffer rinfo now htok

/-- Witness for `connect_registration_spec`: reconnecting while registered
leaves the endpoint unregistered; a fresh endpoint is appended with its
parsed payload. -/
theorem connect_registration_spec_witness :
    Server.hasKey oneClientServer.clients (Server.getKey clientRinfo) = true ∧
    Server.hasKey
      (Server.receive oneClientServer "CONNECT_REQ 4 1".data clientRinfo 7).1.clients
      (Server.getKey clientRinfo) = false ∧
    (Server.receive emptyServer "CONNECT_REQ 4 1".data clientRinfo 7).1.clients =
      emptyServer.clients ++ [(Server.getKey clientRinfo,
        ⟨clientRinfo, 7, (jsJsonParse ((splitSp "CONNECT_REQ 4 1".data).get? 2)).getD
           (Json.obj [])⟩)] :=
  ⟨by decide,
   ((connect_registration_spec oneClientServer "CONNECT_REQ 4 1".data clientRinfo 7
       (by decide)).1 (by decide)).2.2.2,
   ((connect_registration_spec emptyServer "CONNECT_REQ 4 1".data clientRinfo 7
       (by decide)).2.1 (by decide)).1⟩

/-! ## C8: frames with a known leading token but unparseable sequence -/

/-- C8 counterexample: a `DISCOVER_REQ` whose sequence field `abc` does not
parse as an integer is nevertheless dispatched to the protocol handler and
answered with `DISCOVER_ACK NaN`; it is not forwarded as a generic message
event.  This refutes the claim that such frames are treated as pass-through,
non-protocol messages and that the server does not answer them. -/
theorem discover_req_unparseable_answered :
    Server.receive emptyServer "DISCOVER_REQ abc".data clientRinfo 0 =
      (emptyServer, [], [⟨"DISCOVER_ACK NaN".data, 4000, "10.0.0.2"⟩]) := by
  rfl

/-- C8 amended: the receiver dispatches on the leading token alone.  A frame
whose leading token is `DISCOVER_REQ` is always answered with
`DISCOVER_ACK <parseInt(seq)>` — `NaN` when the sequence field does not
parse — and never forwarded as a message event; only a frame whose leading
token is none of the protocol types is forwarded as a generic message event
with no state change and no reply. -/
theorem known_token_always_dispatched (st : Server.State) (buffer : List Char)
    (rinfo : Rinfo) (now : ℚ) :
    ((splitSp buffer).getD 0 [] = "DISCOVER_REQ".data →
       Server.receive st buffer rinfo now =
         (st, [],
          [⟨"DISCOVER_ACK ".data ++ renderSeq (jsParseInt ((splitSp buffer).get? 1)),
            rinfo.port, rinfo.address⟩])) ∧
    ((splitSp buffer).getD 0 [] ≠ "DISCOVER_REQ".data →
     (splitSp buffer).getD 0 [] ≠ "CONNECT_REQ".data →
     (splitSp buffer).getD 0 [] ≠ "KEEPALIVE_REQ".data →
     (splitSp buffer).getD 0 [] ≠ "ERROR".data →
       Server.receive st buffer rinfo now =
         (st, [Server.SEvt.message buffer rinfo], [])) := by
  constructor
  · intro h
    rw [server_receive_discover_req st buffer rinfo now h]
    rfl
  · intro h1 h2 h3 h4
    simp only [Server.receive]
    rw [if_neg h1, if_neg h2, if_neg h3, if_neg h4]

/-- Witness for `known_token_always_dispatched`: `DISCOVER_REQ 7` is
answered with `DISCOVER_ACK 7`, and a non-protocol frame is forwarded as a
message event. -/
theorem known_token_always_dispatched_witness :
    Server.receive emptyServer "DISCOVER_REQ 7".data clientRinfo 0 =
      (emptyServer, [],
       [⟨"DISCOVER_ACK ".data ++ renderSeq (jsParseInt ((splitSp "DISCOVER_REQ 7".data).get? 1)),
         clientRinfo.port, clientRinfo.address⟩]) ∧
    Server.receive emptyServer "hello world".data clientRinfo 0 =
      (emptyServer, [Server.SEvt.message "hello world".data clientRinfo], []) :=
  ⟨(known_token_always_dispatched emptyServer "DISCOVER_REQ 7".data clientRinfo 0).1
     (by decide),
   (known_token_always_dispatched emptyServer "hello world".data clientRinfo 0).2
     (by decide) (by decide) (by decide) (by decide)⟩

/-! ## C10: scan lemmas for the string-literal state machine -/

theorem sc_esc (c : Char) (r : List Char) :
    stringsClosed ('\\' :: c :: r) true = stringsClosed r true := rfl

theorem sc_esc_end : stringsClosed ['\\'] true = false := rfl

theorem sc_quote (r : List Char) (b : Bool) :
    stringsClosed ('"' :: r) b = stringsClosed r (!b) := by
  have h1 : ('"' == '\\') = false := by decide
  have h2 : ('"' == '"') = true := by decide
  cases b <;>
    · conv_lhs => rw [stringsClosed.eq_def]
      simp [h1, h2]

theorem sc_plain (c : Char) (r : List Char) (b : Bool) (h1 : c ≠ '"')
    (h2 : c ≠ '\\') : stringsClosed (c :: r) b = stringsClosed r b := by
  have hb2 : (c == '\\') = false := by simp [h2]
  have hb1 : (c == '"') = false := by simp [h1]
  cases b <;>
    · conv_lhs => rw [stringsClosed.eq_def]
      simp [hb1, hb2]

theorem takeWhile_append_of_all {p : Char → Bool} {a : List Char}
    (h : ∀ c ∈ a, p c = true) (b : List Char) :
    (a ++ b).takeWhile p = a ++ b.takeWhile p := by
  induction a with
  | nil => rfl
  | cons x t ih =>
    have hx := h x (List.mem_cons_self x t)
    rw [List.cons_append, List.takeWhile_cons, if_pos hx,
        ih (fun c hc => h c (List.mem_cons_of_mem x hc)), List.cons_append]

theorem takeWhile_append_of_stop {p : Char → Bool} {a : List Char} {x : Char}
    (hx : x ∈ a) (hpx : p x = false) (b : List Char) :
    (a ++ b).takeWhile p = a.takeWhile p := by
  induction a with
  | nil => simp at hx
  | cons y t ih =>
    cases hy : p y with
    | false =>
      rw [List.cons_append, List.takeWhile_cons, if_neg (by simp [hy]),
          List.takeWhile_cons, if_neg (by simp [hy])]
    | true =>
      rcases List.mem_cons.mp hx with h | h
      · subst h
        rw [hy] at hpx
        cases hpx
      · rw [List.cons_append, List.takeWhile_cons, if_pos hy, List.takeWhile_cons,
          if_pos hy, ih h]

theorem strBody_scan {s : List Char} (h : StrBody s) :
    ∀ r, stringsClosed (s ++ r) true = stringsClosed r true := by
  induction h with
  | nil => intro r; rfl
  | esc c hb ih =>
    intro r
    rw [List.cons_append, List.cons_append, sc_esc]
    exact ih r
  | chr c h1 h2 hb ih =>
    intro r
    rw [List.cons_append, sc_plain c _ _ h1 h2]
    exact ih r

theorem strBody_cut {s : List Char} (h : StrBody s) (hsp : ' ' ∈ s) :
    stringsClosed (s.takeWhile (fun c => !(c == ' '))) true = false := by
  induction h with
  | nil => simp at hsp
  | esc c hb ih =>
    by_cases hc : c = ' '
    · subst hc
      rw [List.takeWhile_cons, if_pos (by decide), List.takeWhile_cons,
          if_neg (by decide)]
      exact sc_esc_end
    · obtain h | h := List.mem_cons.mp hsp
      · exact absurd h (by decide)
      obtain h | h := List.mem_cons.mp h
      · exact absurd h.symm hc
      rw [List.takeWhile_cons, if_pos (by decide), List.takeWhile_cons,
          if_pos (by simp [hc]), sc_esc]
      exact ih h
  | chr c h1 h2 hb ih =>
    by_cases hc : c = ' '
    · subst hc
      rw [List.takeWhile_cons, if_neg (by decide)]
      rfl
    · obtain h | h := List.mem_cons.mp hsp
      · exact absurd h.symm hc
      rw [List.takeWhile_cons, if_pos (by simp [hc]), sc_plain c _ _ h1 h2]
      exact ih h

theorem chunks_cut {cs : List Char} (h : Chunks cs) (hsp : ' ' ∈ cs) :
    stringsClosed (cs.takeWhile (fun c => !(c == ' '))) false = false := by
  induction h with
  | nil => simp at hsp
  | plain c h1 h2 h3 hc ih =>
    obtain h | h := List.mem_cons.mp hsp
    · exact absurd h.symm h1
    rw [List.takeWhile_cons, if_pos (by simp [h1]), sc_plain c _ _ h2 h3]
    exact ih h
  | strat s hs hc ih =>
    by_cases hin : ' ' ∈ s
    · rw [List.takeWhile_cons, if_pos (by decide),
          takeWhile_append_of_stop hin (by decide), sc_quote]
      simpa using strBody_cut hs hin
    · have hall : ∀ c ∈ s, (!(c == ' ')) = true := by
        intro c hcm
        simp only [Bool.not_eq_true', beq_eq_false_iff_ne]
        intro hce
        exact hin (hce ▸ hcm)
      obtain h | h := List.mem_cons.mp hsp
      · exact absurd h (by decide)
      obtain h | h := List.mem_append.mp h
      · exact absurd h hin
      obtain h | h := List.mem_cons.mp h
      · exact absurd h (by decide)
      rw [List.takeWhile_cons, if_pos (by decide), takeWhile_append_of_all hall,
          List.takeWhile_cons, if_pos (by decide), sc_quote]
      simp only [Bool.not_false]
      rw [strBody_scan hs, sc_quote]
      simp only [Bool.not_true]
      exact ih h

theorem jsJsonParse_not_closed {cs : List Char}
    (h : stringsClosed cs false = false) : jsJsonParse (some cs) = none := by
  simp [jsJsonParse, h]
theorem escChar_strBody_append (c : Char) {cs : List Char} (h : StrBody cs) :
    StrBody (escChar c ++ cs) := by
  unfold escChar
  split_ifs with h1 h2 h3 h4 h5
  · exact StrBody.esc _ h
  · exact StrBody.esc _ h
  · exact StrBody.esc _ h
  · exact StrBody.esc _ h
  · exact StrBody.esc _ h
  · exact StrBody.chr c h1 h2 h

theorem escStr_strBody (s : List Char) : StrBody (escStr s) := by
  induction s with
  | nil => exact StrBody.nil
  | cons c t ih =>
    have he : escStr (c :: t) = escChar c ++ escStr t := by
      simp [escStr]
    rw [he]
    exact escChar_strBody_append c ih

theorem chunks_of_plain {a : List Char}
    (h : ∀ c ∈ a, c ≠ ' ' ∧ c ≠ '"' ∧ c ≠ '\\') : Chunks a := by
  induction a with
  | nil => exact Chunks.nil
  | cons c t ih =>
    obtain ⟨h1, h2, h3⟩ := h c (List.mem_cons_self c t)
    exact Chunks.plain c h1 h2 h3 (ih (fun d hd => h d (List.mem_cons_of_mem c hd)))

theorem chunks_append {a b : List Char} (ha : Chunks a) (hb : Chunks b) :
    Chunks (a ++ b) := by
  induction ha with
  | nil => exact hb
  | plain c h1 h2 h3 hc ih => exact Chunks.plain c h1 h2 h3 ih
  | strat s hs hc ih =>
    rw [List.cons_append, List.append_assoc, List.cons_append]
    exact Chunks.strat s hs ih

theorem digitChar_plain (d : Nat) :
    digitChar d ≠ ' ' ∧ digitChar d ≠ '"' ∧ digitChar d ≠ '\\' := by
  unfold digitChar
  split_ifs <;> exact ⟨by decide, by decide, by decide⟩

theorem natCharsAux_plain (fuel : Nat) :
    ∀ (n : Nat), ∀ c ∈ natCharsAux fuel n, c ≠ ' ' ∧ c ≠ '"' ∧ c ≠ '\\' := by
  induction fuel with
  | zero =>
    intro n c hc
    simp [natCharsAux] at hc
  | succ f ih =>
    intro n c hc
    unfold natCharsAux at hc
    by_cases h : n < 10
    · rw [if_pos h] at hc
      simp only [List.mem_singleton] at hc
      subst hc
      exact digitChar_plain n
    · rw [if_neg h] at hc
      rcases List.mem_append.mp hc with h1 | h1
      · exact ih _ c h1
      · simp only [List.mem_singleton] at h1
        subst h1
        exact digitChar_plain _

theorem intChars_plain (n : Int) :
    ∀ c ∈ intChars n, c ≠ ' ' ∧ c ≠ '"' ∧ c ≠ '\\' := by
  cases n with
  | ofNat m => exact natCharsAux_plain _ _
  | negSucc m =>
    intro c hc
    rcases List.mem_cons.mp hc with h | h
    · subst h
      exact ⟨by decide, by decide, by decide⟩
    · exact natCharsAux_plain _ _ c h

mutual

theorem stringify_chunks : ∀ v : Json, Chunks (stringifyChars v)
  | Json.null => chunks_of_plain (by decide)
  | Json.bool true => chunks_of_plain (by decide)
  | Json.bool false => chunks_of_plain (by decide)
  | Json.num n => chunks_of_plain (intChars_plain n)
  | Json.str s =>
    Chunks.strat (escStr s.data) (escStr_strBody s.data) Chunks.nil
  | Json.arr xs =>
    Chunks.plain '[' (by decide) (by decide) (by decide)
      (chunks_append (stringifyList_chunks xs) (chunks_of_plain (by decide)))
  | Json.obj kvs =>
    Chunks.plain '{' (by decide) (by decide) (by decide)
      (chunks_append (stringifyObjList_chunks kvs) (chunks_of_plain (by decide)))

theorem stringifyList_chunks : ∀ xs : List Json, Chunks (stringifyList xs)
  | [] => Chunks.nil
  | [v] => stringify_chunks v
  | v :: w :: rest =>
    chunks_append (stringify_chunks v)
      (Chunks.plain ',' (by decide) (by decide) (by decide)
        (stringifyList_chunks (w :: rest)))

theorem stringifyObjList_chunks :
    ∀ kvs : List (String × Json), Chunks (stringifyObjList kvs)
  | [] => Chunks.nil
  | [kv] => stringifyEntry_chunks kv
  | kv :: p :: rest =>
    chunks_append (stringifyEntry_chunks kv)
      (Chunks.plain ',' (by decide) (by decide) (by decide)
        (stringifyObjList_chunks (p :: rest)))

theorem stringifyEntry_chunks : ∀ kv : String × Json, Chunks (stringifyEntry kv)
  | (k, v) =>
    Chunks.strat (escStr k.data) (escStr_strBody k.data)
      (Chunks.plain ':' (by decide) (by decide) (by decide) (stringify_chunks v))

end

theorem splitSp_append_nospace {a : List Char} (h : ∀ c ∈ a, c ≠ ' ')
    (b : List Char) : splitSp (a ++ ' ' :: b) = a :: splitSp b := by
  induction a with
  | nil => simp [splitSp]
  | cons c t ih =>
    have hc : c ≠ ' ' := h c (List.mem_cons_self c t)
    rw [List.cons_append]
    conv_lhs => rw [splitSp.eq_def]
    simp only [if_neg hc]
    rw [ih (fun d hd => h d (List.mem_cons_of_mem c hd))]

theorem splitSp_head (cs : List Char) :
    (splitSp cs).get? 0 = some (cs.takeWhile (fun c => !(c == ' '))) := by
  induction cs with
  | nil => rfl
  | cons c t ih =>
    by_cases hc : c = ' '
    · subst hc
      conv_lhs => rw [splitSp.eq_def]
      rw [List.takeWhile_cons, if_neg (by decide)]
      simp
    · conv_lhs => rw [splitSp.eq_def]
      simp only [if_neg hc]
      cases hs : splitSp t with
      | nil => exact absurd hs (splitSp_ne_nil t)
      | cons t0 ts =>
        rw [hs] at ih
        simp only [List.get?_cons_zero, Option.some.injEq] at ih
        rw [List.takeWhile_cons, if_pos (by simp [hc])]
        simp [ih]

/-- C10: a `CONNECT_REQ` datagram whose serialized JSON payload contains a
space character is split on single spaces by the server, which then parses
only the first payload token.  That token cuts the payload inside a string
literal (spaces in `JSON.stringify` output occur only inside string
literals), so the parse fails and the endpoint is registered with the empty
object as its payload instead of the payload that was sent. -/
theorem connect_payload_with_space_lost (st : Server.State) (rinfo : Rinfo)
    (now : ℚ) (seq : Int) (v : Json)
    (hsp : ' ' ∈ stringifyChars v)
    (hreg : Server.hasKey st.clients (Server.getKey rinfo) = false) :
    (Server.receive st ("CONNECT_REQ ".data ++ intChars seq ++ ' ' :: stringifyChars v)
       rinfo now).1.clients =
      st.clients ++ [(Server.getKey rinfo, ⟨rinfo, now, Json.obj []⟩)] ∧
    (Server.receive st ("CONNECT_REQ ".data ++ intChars seq ++ ' ' :: stringifyChars v)
       rinfo now).2.1 =
      [Server.SEvt.connection ⟨rinfo, now, Json.obj []⟩] := by
  have hbuf : "CONNECT_REQ ".data ++ intChars seq ++ ' ' :: stringifyChars v =
      "CONNECT_REQ".data ++ ' ' :: (intChars seq ++ ' ' :: stringifyChars v) := by
    rfl
  have hsplit : splitSp ("CONNECT_REQ ".data ++ intChars seq ++ ' ' :: stringifyChars v) =
      "CONNECT_REQ".data :: intChars seq :: splitSp (stringifyChars v) := by
    rw [hbuf, splitSp_append_nospace (by decide),
        splitSp_append_nospace (fun c hc => (intChars_plain seq c hc).1)]
  have htok : (splitSp ("CONNECT_REQ ".data ++ intChars seq ++ ' ' :: stringifyChars v)).getD
      0 [] = "CONNECT_REQ".data := by
    rw [hsplit]
    rfl
  have hpayload : (splitSp ("CONNECT_REQ ".data ++ intChars seq ++ ' ' ::
      stringifyChars v)).get? 2 =
      some ((stringifyChars v).takeWhile (fun c => !(c == ' '))) := by
    rw [hsplit, List.get?_cons_succ, List.get?_cons_succ, splitSp_head]
  have hparse : jsJsonParse ((splitSp ("CONNECT_REQ ".data ++ intChars seq ++ ' ' ::
      stringifyChars v)).get? 2) = none := by
    rw [hpayload]
    exact jsJsonParse_not_closed (chunks_cut (stringify_chunks v) hsp)
  have hmain := receiveConnectReq_spec st
    ("CONNECT_REQ ".data ++ intChars seq ++ ' ' :: stringifyChars v) rinfo now htok
  obtain ⟨h1, h2, -⟩ := (hmain.2.1) hreg
  rw [hparse] at h1 h2
  exact ⟨h1, h2⟩

/-- Witness for `connect_payload_with_space_lost`: the payload
`{"a":"x y"}` serializes with a space, and the record registered for the
sender carries the empty object instead. -/
theorem connect_payload_with_space_lost_witness :
    ' ' ∈ stringifyChars (Json.obj [("a", Json.str "x y")]) ∧
    Server.hasKey emptyServer.clients (Server.getKey clientRinfo) = false ∧
    (Server.receive emptyServer
       ("CONNECT_REQ ".data ++ intChars 5 ++ ' ' ::
         stringifyChars (Json.obj [("a", Json.str "x y")])) clientRinfo 2).1.clients =
      emptyServer.clients ++ [(Server.getKey clientRinfo, ⟨clientRinfo, 2, Json.obj []⟩)] :=
  ⟨by decide, by decide,
   (connect_payload_with_space_lost emptyServer clientRinfo 2 5
      (Json.obj [("a", Json.str "x y")]) (by decide) (by decide)).1⟩
